import Mathlib

/-!
Shallow embedding of the session / link-directory / rule-element core of the
smc-python client library (src/smc/api/session.py and
src/smc/policy/rule_elements.py), together with theorems settling the
specification claims about it.

Modelling conventions:
* Python exceptions become the `PyExc` error type carried by `Except`.
* Python `dict`s whose keys we must track become association lists with
  insert-or-replace semantics (one binding per key, insertion order kept).
* Python `float` version numbers become exact rationals (`Rat`); the version
  identifiers handled by the code are short decimal literals, for which the
  numeric order of the floats and of the rationals coincide.
* The HTTP transport is an external collaborator; each network interaction is
  a parameter (status code / parsed body) of the function that performs it.
-/

namespace SMC

/-- Exception taxonomy of the embedded code: the typed SMC errors raised in
`session.py` / `rule_elements.py`, plus the built-in Python errors that the
code paths can produce (`ValueError` from `max([])` or `float(...)`,
`AttributeError` / `TypeError` from operating on a non-list value). -/
inductive PyExc where
  | smcConnectionError (msg : String)
  | unsupportedEntryPoint (msg : String)
  | configLoadError
  | elementNotFound
  | valueError
  | attributeError
  | typeError
  deriving Repr, DecidableEq

/-- One member of the `entry_point` list discovered from the SMC root: a JSON
object from which the code reads `entry.get('rel')` and
`entry.get('href', None)`; either key may be absent. -/
structure Entry where
  rel : Option String
  href : Option String
  deriving Repr, DecidableEq

/-- Does the list of characters `pat` occur at the head of `s`. -/
def leadMatch : List Char → List Char → Bool
  | [], _ => true
  | _ :: _, [] => false
  | a :: as, b :: bs => a = b && leadMatch as bs

/-- Characters following the leftmost occurrence of `pat` inside `s`
(`none` when `pat` does not occur). -/
def afterOcc (pat : List Char) : List Char → Option (List Char)
  | [] => if leadMatch pat [] then some [] else none
  | c :: t =>
      if leadMatch pat (c :: t) then some ((c :: t).drop pat.length)
      else afterOcc pat t

/-- Does `needle` occur as a contiguous substring of `hay`. -/
def strContains (needle hay : String) : Bool :=
  (afterOcc needle.toList hay.toList).isSome

/-- Python truthiness of an optional string (`None` and `''` are falsy). -/
def truthyStr : Option String → Bool
  | none => false
  | some s => !s.isEmpty

/-- Decimal digits of the fractional part of `r / d`, produced by repeated
multiplication by ten; the fuel bounds the expansion (every rational the code
actually stores comes from a finite decimal literal, so the expansion ends). -/
def fracPart : Nat → Nat → Nat → String
  | _, _, 0 => ""
  | r, d, fuel + 1 =>
      if r = 0 then ""
      else toString (r * 10 / d) ++ fracPart (r * 10 % d) d fuel

/-- Rendering of a stored version number, modelling Python `str` on the float:
integral part, a dot, then the fractional digits (`6.5`, `6.0`, ...). -/
def decStr (q : Rat) : String :=
  let sign := if q.num < 0 then "-" else ""
  let a := q.num.natAbs
  let f := fracPart (a % q.den) q.den 30
  sign ++ toString (a / q.den) ++ (if f.isEmpty then ".0" else "." ++ f)

/-- Rendering of the cached `api_version` field, modelling Python `str`
(`str(None)` is `"None"`). -/
def verStr : Option Rat → String
  | none => "None"
  | some q => decStr q

/-- Numeric value of a non-empty all-digit character list. -/
def digitsVal? (cs : List Char) : Option Nat :=
  if cs ≠ [] ∧ cs.all Char.isDigit then
    some (cs.foldl (fun a c => a * 10 + (c.toNat - 48)) 0)
  else none

/-- Splitting of a character list at every dot (the shape of Python's
`s.split('.')`, used here to read a decimal literal). -/
def splitDot : List Char → List (List Char)
  | [] => [[]]
  | c :: t =>
      if c = '.' then [] :: splitDot t
      else
        match splitDot t with
        | h :: r => (c :: h) :: r
        | [] => [[c]]

/-- Parsing of a version identifier, modelling Python `float` on the plain
decimal forms `digits` and `digits.digits` the discovery document carries;
any other shape is a parse failure (Python `ValueError`). -/
def parseDec (s : String) : Option Rat :=
  match splitDot s.toList with
  | [a] => (digitsVal? a).map (fun n => (n : Rat))
  | [a, b] =>
      match digitsVal? a, digitsVal? b with
      | some ia, some fb => some ((ia : Rat) + (fb : Rat) / ((10 : Rat) ^ b.length))
      | _, _ => none
  | _ => none

/-- The cache of discovered SMC state held by `SessionCache.__init__`:
`api_entry` and `api_version` both start as `None`. -/
structure SessionCache where
  api_entry : Option (List Entry)
  api_version : Option Rat
  deriving Repr, DecidableEq

/-- The empty cache built by `SessionCache()`. -/
def SessionCache.init : SessionCache := ⟨none, none⟩

/-- Text of the `UnsupportedEntryPoint` format string before the first
interpolation slot. -/
def unsupportedMsgPre : String := "The specified entry point '"

/-- Text of the `UnsupportedEntryPoint` format string between its two
interpolation slots. -/
def unsupportedMsgMid : String :=
  "' was not found in this version of the SMC API. Check the element " ++
  "documentation to determine the correct version and specify the " ++
  "api_version parameter during session.login() if necessary. " ++
  "Current api version is "

/-- Message text built by the `UnsupportedEntryPoint` raise site of
`get_entry_href`, with the requested verb and the current api version
interpolated into the format string. -/
def unsupportedMsg (verb : String) (v : Option Rat) : String :=
  unsupportedMsgPre ++ verb ++ unsupportedMsgMid ++ verStr v

/-- `SessionCache.get_entry_href`: walk every entry, remembering the `href` of
each entry whose `rel` equals `verb` (so the last matching entry wins); a
missing or empty final `href` raises `UnsupportedEntryPoint` with a message
naming the verb and the current api version; a `None` or empty `api_entry`
raises `SMCConnectionError`. -/
def SessionCache.get_entry_href (cache : SessionCache) (verb : String) :
    Except PyExc String :=
  match cache.api_entry with
  | some entries =>
      if entries.isEmpty then
        .error (.smcConnectionError
          ("No entry points found, it is likely there is no valid login session."))
      else
        match entries.foldl
            (fun acc e => if e.rel = some verb then e.href else acc) none with
        | some h =>
            if h.isEmpty then
              .error (.unsupportedEntryPoint (unsupportedMsg verb cache.api_version))
            else .ok h
        | none =>
            .error (.unsupportedEntryPoint (unsupportedMsg verb cache.api_version))
  | none =>
      .error (.smcConnectionError
        ("No entry points found, it is likely there is no valid login session."))

/-- Version selection performed at the top of `get_api_entry`: keep an
explicitly supplied version, otherwise parse the advertised `version`
relations and take the numeric maximum (`max([])` and an unparseable
identifier raise `ValueError`). -/
def negotiatedVersion (api_version : Option Rat) (advertised : List String) :
    Except PyExc Rat :=
  match api_version with
  | some v => .ok v
  | none =>
      match advertised.mapM parseDec with
      | none => .error .valueError
      | some [] => .error .valueError
      | some (v :: vs) => .ok (vs.foldl max v)

/-- `SessionCache.get_api_entry`: choose the version through
`negotiatedVersion`, then fetch the versioned root, demand HTTP 200, and
replace the cache with the returned entry points and the negotiated version.
The two network reads are supplied by the caller: `advertised` is the parsed
version list of the unauthenticated discovery response, and
`rootStatus`/`rootText`/`rootEntries` describe the versioned-root response. -/
def SessionCache.get_api_entry (_cache : SessionCache) (api_version : Option Rat)
    (advertised : List String) (rootStatus : Nat) (rootText : String)
    (rootEntries : List Entry) : Except PyExc SessionCache :=
  match negotiatedVersion api_version advertised with
  | .error e => .error e
  | .ok v =>
      if rootStatus = 200 then
        .ok ⟨some rootEntries, some v⟩
      else
        .error (.smcConnectionError
          ("Error occurred during initial api request, json was not returned. " ++
           "Return data was: " ++ rootText))

/-- `SessionCache.get_element_filters`: form the pattern
`get_entry_href('elements') + "/(.*)"` and scan every entry's `href` with it,
collecting `group(1)` of each match.  The greedy `(.*)` runs to the end of the
string, so per href the scan yields the characters after the leftmost
occurrence of `base + "/"`; the base addresses handled by the code contain no
regex metacharacters that would widen the match, so the occurrence is taken
literally.  An entry without an `href` key makes `re.finditer` receive `None`
(`TypeError`). -/
def SessionCache.get_element_filters (cache : SessionCache) :
    Except PyExc (List String) :=
  match cache.get_entry_href "elements" with
  | .error e => .error e
  | .ok base =>
      match (cache.api_entry.getD []).mapM (fun e =>
          match e.href with
          | some h => Except.ok h
          | none => Except.error PyExc.typeError) with
      | .error e => .error e
      | .ok hrefs =>
          .ok (hrefs.filterMap (fun h =>
            (afterOcc (base ++ "/").toList h.toList).map (fun cs => String.mk cs)))

/-- The per-process session state of `Session.__init__`: stored url and api
key (both `None` until a login supplies them), the connect timeout (default
10), the discovery cache, whether an authenticated transport session object is
currently bound (`self._session is not None`), and the private consecutive-401
counter `self.__http_401` (starts at 0). -/
structure Session where
  url : Option String
  api_key : Option String
  timeout : Nat
  cache : SessionCache
  established : Bool
  http401 : Nat
  deriving Repr, DecidableEq

/-- The state built by `Session()`. -/
def Session.init : Session := ⟨none, none, 10, SessionCache.init, false, 0⟩

/-- One round of collaborator responses for a login attempt: the advertised
version identifiers of the unauthenticated discovery document, the
versioned-root response, and the status of the credential POST. -/
structure NetOracle where
  advertised : List String
  rootStatus : Nat
  rootText : String
  rootEntries : List Entry
  loginStatus : Nat
  deriving Repr, DecidableEq

/-- The timeout stored by `login`: Python's `if timeout:` keeps the old value
for a missing or zero (falsy) argument. -/
def Session.loginTimeout (s : Session) (timeout : Option Nat) : Nat :=
  match timeout with
  | some t => if t ≠ 0 then t else s.timeout
  | none => s.timeout

/-- `Session.login`: when both `url` and `api_key` are truthy, store them (and
the timeout when truthy, via `Session.loginTimeout`), refresh the cache
through `get_api_entry` (storing url and api key does not change the cache the
refresh reads), resolve the `login` relation and POST the credential there;
HTTP 200 binds a new transport session, any other status raises
`SMCConnectionError` with the status code.  When url or api_key is missing the
code falls back to the external configuration collaborator; that collaborator
is outside this embedding, so the fallback is modelled as the
`ConfigLoadError` it raises when no stored settings are available.  In-place
attribute writes made before a raise are not observed by any modelled caller,
so a raising call is represented by the error alone. -/
def Session.login (s : Session) (url api_key : Option String)
    (api_version : Option Rat) (timeout : Option Nat) (net : NetOracle) :
    Except PyExc Session :=
  if truthyStr url && truthyStr api_key then
    match s.cache.get_api_entry api_version net.advertised net.rootStatus
        net.rootText net.rootEntries with
    | .error e => .error e
    | .ok cache' =>
        match cache'.get_entry_href "login" with
        | .error e => .error e
        | .ok _href =>
            if net.loginStatus = 200 then
              .ok { url := url, api_key := api_key,
                    timeout := s.loginTimeout timeout, cache := cache',
                    established := true, http401 := s.http401 }
            else
              .error (.smcConnectionError
                ("Login failed, HTTP status code: " ++ toString net.loginStatus))
  else
    .error .configLoadError

/-- `Session.logout`: when a session is bound, PUT to the resolved `logout`
relation; every response status is merely logged (204 as success, 401 and the
rest as errors), nothing is raised on any status and the bound session is not
cleared.  Resolving the relation can itself raise.  When no session is bound
the method does nothing. -/
def Session.logout (s : Session) (_status : Nat) : Except PyExc Session :=
  if s.established then
    match s.cache.get_entry_href "logout" with
    | .error e => .error e
    | .ok _href => .ok s
  else .ok s

/-- `Session.http_unauthorized`: increment the private 401 counter, then — if
a session was previously bound — raise `SMCConnectionError` once the counter
has reached two, and otherwise re-invoke `login` with the stored url, api key
and the cached api version; with no previously bound session raise
`SMCConnectionError` directly.  No code path ever resets the counter. -/
def Session.http_unauthorized (s : Session) (net : NetOracle) :
    Except PyExc Session :=
  if s.established then
    if s.http401 + 1 ≥ 2 then
      .error (.smcConnectionError "Unauthorized. Too many HTTP 401 requests received.")
    else
      Session.login { s with http401 := s.http401 + 1 } s.url s.api_key
        s.cache.api_version none net
  else
    .error (.smcConnectionError
      ("No previous SMC session found. This will require a new login attempt"))

/-- JSON-ish values stored in the nested-dict data of rule elements and rule
options: booleans, strings, integers, and lists of hrefs. -/
inductive PyVal where
  | pbool (b : Bool)
  | pstr (s : String)
  | pint (i : Int)
  | plist (l : List String)
  deriving Repr, DecidableEq

/-- A Python dict with string keys, as an association list holding at most one
binding per key, in insertion order. -/
abbrev Dict := List (String × PyVal)

/-- Dict lookup (`d.get(k)`, `None` when absent). -/
def dLookup : Dict → String → Option PyVal
  | [], _ => none
  | (k', v') :: t, k => if k' = k then some v' else dLookup t k

/-- Dict write (`d[k] = v` / `d.update(k=v)`): replace the existing binding in
place, or append a new one. -/
def dInsert : Dict → String → PyVal → Dict
  | [], k, v => [(k, v)]
  | (k', v') :: t, k, v =>
      if k' = k then (k, v) :: t else (k', v') :: dInsert t k v

/-- An argument acceptable to the rule-element mutators: either a raw locator
string, or an element object whose href resolution either yields a locator or
fails because the element does not exist on the server. -/
inductive RuleItem where
  | href (s : String)
  | element (name : String) (resolved : Option String)
  deriving Repr, DecidableEq

/-- Modelled from the spec: `smc.base.util.element_resolver` (its module is
not part of the sources) accepts an already-resolved reference or a raw
locator string and returns the locator, raising `ElementNotFound` when the
element cannot be found. -/
def element_resolver : RuleItem → Except PyExc String
  | .href s => .ok s
  | .element _ (some h) => .ok h
  | .element _ none => .error .elementNotFound

/-- Modelled from the spec: the list form of `element_resolver` with
`do_raise=False` resolves all items and drops the unresolved ones instead of
raising. -/
def element_resolver_list (l : List RuleItem) : List String :=
  l.filterMap (fun i => (element_resolver i).toOption)

/-- A rule field (`RuleElement` over a `NestedDict`): the field name the
subclass fixes (`src` / `dst` / `service`) and the underlying dict.  Modelled
from the spec: `smc.base.structs.NestedDict` (its module is not part of the
sources) is a plain dict wrapper whose `clear` / `update` / `get` / `in` have
dict semantics on `self.data`. -/
structure RuleElt where
  typeof : String
  data : Dict
  deriving Repr, DecidableEq

/-- `RuleElement.is_any`: key membership of `'any'`. -/
def RuleElt.is_any (r : RuleElt) : Bool := (dLookup r.data "any").isSome

/-- `RuleElement.is_none`: key membership of `'none'`. -/
def RuleElt.is_none (r : RuleElt) : Bool := (dLookup r.data "none").isSome

/-- `RuleElement.set_any`: `clear()` then `update({'any': True})`. -/
def RuleElt.set_any (r : RuleElt) : RuleElt :=
  ⟨r.typeof, dInsert [] "any" (.pbool true)⟩

/-- `RuleElement.set_none`: `clear()` then `update({'none': True})`. -/
def RuleElt.set_none (r : RuleElt) : RuleElt :=
  ⟨r.typeof, dInsert [] "none" (.pbool true)⟩

/-- `RuleElement.add`: when the field is in a marker state, `clear()` and bind
an empty list under the field name; then append the resolved locator to the
stored list, swallowing `ElementNotFound` from the resolver (the item is
skipped).  Appending when the stored value is not a list (or the key is
absent) is Python's `AttributeError`. -/
def RuleElt.add (r : RuleElt) (item : RuleItem) : Except PyExc RuleElt :=
  let r' : RuleElt :=
    if r.is_none || r.is_any then
      ⟨r.typeof, dInsert [] r.typeof (.plist [])⟩
    else r
  match element_resolver item with
  | .error _ => .ok r'
  | .ok h =>
      match dLookup r'.data r'.typeof with
      | some (.plist l) =>
          .ok ⟨r'.typeof, dInsert r'.data r'.typeof (.plist (l ++ [h]))⟩
      | _ => .error .attributeError

/-- `RuleElement.add_many`: the argument must be a list (asserted, so the
model takes a list); when the field is in a marker state, `clear()` and bind
an empty list; then resolve every item with unresolved locators dropped and
replace the stored list wholesale. -/
def RuleElt.add_many (r : RuleElt) (items : List RuleItem) : RuleElt :=
  let r' : RuleElt :=
    if r.is_none || r.is_any then
      ⟨r.typeof, dInsert [] r.typeof (.plist [])⟩
    else r
  ⟨r'.typeof, dInsert r'.data r'.typeof (.plist (element_resolver_list items))⟩

/-- `RuleElement.all_as_href`: when the field is in neither marker state,
return the stored locators; otherwise fall off the end of the function and
return Python `None` (there is no final `return []`).  Iterating a non-list
stored value is Python's `TypeError`. -/
def RuleElt.all_as_href (r : RuleElt) : Except PyExc (Option (List String)) :=
  if !r.is_any && !r.is_none then
    match dLookup r.data r.typeof with
    | some (.plist l) => .ok (some l)
    | _ => .error .typeError
  else .ok none

/-- Modelled from the spec: `Element.from_href` (the `smc.base.model` module
is not part of the sources) builds a lazily-resolved local proxy identified by
its locator, with no network call. -/
structure ElementHandle where
  href : String
  deriving Repr, DecidableEq

/-- `RuleElement.all`: when the field is in neither marker state, return a
resolved handle for every stored locator; in a marker state return `[]`. -/
def RuleElt.all (r : RuleElt) : Except PyExc (List ElementHandle) :=
  if !r.is_any && !r.is_none then
    match dLookup r.data r.typeof with
    | some (.plist l) => .ok (l.map ElementHandle.mk)
    | _ => .error .typeError
  else .ok []

/-- The three data forms of a rule field per the data model: exactly
`{any: true}`, exactly `{none: true}`, or exactly an explicit list bound under
the field name. -/
def wfData (r : RuleElt) : Prop :=
  r.data = [("any", PyVal.pbool true)] ∨ r.data = [("none", PyVal.pbool true)] ∨
  ∃ l, r.data = [(r.typeof, PyVal.plist l)]

/-- Exactly one of the three forms is observable: the `any` marker, the
`none` marker, or an explicit list under the field name — with the other two
absent. -/
def oneActive (r : RuleElt) : Prop :=
  (r.is_any = true ∧ r.is_none = false ∧ dLookup r.data r.typeof = none) ∨
  (r.is_any = false ∧ r.is_none = true ∧ dLookup r.data r.typeof = none) ∨
  (r.is_any = false ∧ r.is_none = false ∧
    ∃ l, dLookup r.data r.typeof = some (PyVal.plist l))

/-- Python truthiness of an optional stored value (`None`, `False`, `''`,
`0` and `[]` are falsy). -/
def truthyVal : Option PyVal → Bool
  | none => false
  | some (.pbool b) => b
  | some (.pstr s) => !s.isEmpty
  | some (.pint i) => i != 0
  | some (.plist l) => !l.isEmpty

/-- Per-rule log options (`LogOptions` over a `NestedDict`): the underlying
options dict. -/
structure LogOptions where
  data : Dict
  deriving Repr, DecidableEq

/-- The `log_level` getter: `self.get('log_level')`. -/
def LogOptions.log_level (o : LogOptions) : Option PyVal :=
  dLookup o.data "log_level"

/-- The `log_accounting_info_mode` getter. -/
def LogOptions.log_accounting_info_mode (o : LogOptions) : Option PyVal :=
  dLookup o.data "log_accounting_info_mode"

/-- The `log_level` setter: store the value only when it is one of the five
accepted levels, then — whenever the accounting flag is falsy — force
`log_accounting_info_mode` to `True` through its own setter. -/
def LogOptions.set_log_level (o : LogOptions) (v : String) : LogOptions :=
  let o1 : LogOptions :=
    if v ∈ ["none", "stored", "transient", "essential", "alert"] then
      ⟨dInsert o.data "log_level" (.pstr v)⟩
    else o
  if !truthyVal (dLookup o1.data "log_accounting_info_mode") then
    ⟨dInsert o1.data "log_accounting_info_mode" (.pbool true)⟩
  else o1

deriving instance DecidableEq for Except

/-! Helper lemmas about the embedded primitives. -/

/-- A pattern occurs at the head of itself followed by anything. -/
theorem leadMatch_append (p r : List Char) : leadMatch p (p ++ r) = true := by
  induction p with
  | nil => rfl
  | cons a as ih => simp [leadMatch, ih]

/-- When the pattern occurs at the head, the scan stops there and returns the
remainder. -/
theorem afterOcc_of_leadMatch (p s : List Char) (h : leadMatch p s = true) :
    afterOcc p s = some (s.drop p.length) := by
  cases s with
  | nil => simp [afterOcc, h]
  | cons c t => simp [afterOcc, h]

/-- Scanning `p ++ r` for `p` yields exactly `r`. -/
theorem afterOcc_append_self (p r : List Char) :
    afterOcc p (p ++ r) = some r := by
  rw [afterOcc_of_leadMatch p (p ++ r) (leadMatch_append p r)]
  simp [List.drop_left]

/-- The scan succeeds whenever the pattern occurs anywhere in the string. -/
theorem afterOcc_isSome_of_parts (p a b : List Char) :
    (afterOcc p (a ++ (p ++ b))).isSome = true := by
  induction a with
  | nil => simp [afterOcc_append_self]
  | cons c t ih =>
      rw [List.cons_append, afterOcc]
      cases hl : leadMatch p (c :: (t ++ (p ++ b))) with
      | true => simp
      | false => simpa using ih

/-- `strContains` holds whenever the haystack splits around the needle. -/
theorem strContains_of_parts (needle hay : String) (a b : List Char)
    (h : hay.toList = a ++ needle.toList ++ b) :
    strContains needle hay = true := by
  unfold strContains
  rw [h, List.append_assoc]
  exact afterOcc_isSome_of_parts needle.toList a b

/-- A head match needs at least the pattern's length. -/
theorem leadMatch_length_le (p s : List Char) (h : leadMatch p s = true) :
    p.length ≤ s.length := by
  induction p generalizing s with
  | nil => simp
  | cons a as ih =>
      cases s with
      | nil => simp [leadMatch] at h
      | cons b bs =>
          simp only [leadMatch, Bool.and_eq_true] at h
          simpa using ih bs h.2

/-- A successful scan needs at least the pattern's length. -/
theorem afterOcc_length_le (p s : List Char) (r : List Char)
    (h : afterOcc p s = some r) : p.length ≤ s.length := by
  induction s with
  | nil =>
      rw [afterOcc] at h
      by_cases hl : leadMatch p [] = true
      · exact leadMatch_length_le p [] hl
      · simp only [Bool.not_eq_true] at hl
        simp [hl] at h
  | cons c t ih =>
      rw [afterOcc] at h
      by_cases hl : leadMatch p (c :: t) = true
      · exact leadMatch_length_le p (c :: t) hl
      · simp only [Bool.not_eq_true] at hl
        simp only [hl, Bool.false_eq_true, if_false] at h
        exact Nat.le_succ_of_le (ih h)

/-- A pattern longer than the string never occurs in it. -/
theorem afterOcc_none_of_longer (p s : List Char) (h : s.length < p.length) :
    afterOcc p s = none := by
  cases ho : afterOcc p s with
  | none => rfl
  | some r => exact absurd (afterOcc_length_le p s r ho) (Nat.not_le.mpr h)

/-- Rebuilding a string from its characters is the identity. -/
theorem strMk_toList (s : String) : String.mk s.toList = s := by
  cases s
  rfl

/-- The entry fold of `get_entry_href` ignores entries whose relation does not
match. -/
theorem foldl_rel_no_match (verb : String) (l : List Entry)
    (acc : Option String) (h : ∀ e ∈ l, e.rel ≠ some verb) :
    l.foldl (fun acc e => if e.rel = some verb then e.href else acc) acc
      = acc := by
  induction l generalizing acc with
  | nil => rfl
  | cons e t ih =>
      have he : e.rel ≠ some verb := h e (List.mem_cons_self e t)
      simp only [List.foldl_cons, if_neg he]
      exact ih acc (fun e' he' => h e' (List.mem_cons_of_mem e he'))

/-- A `max`-fold over rationals lands on its seed or on a list member. -/
theorem foldl_max_mem (l : List Rat) (a : Rat) :
    l.foldl max a = a ∨ l.foldl max a ∈ l := by
  induction l generalizing a with
  | nil => left; rfl
  | cons x t ih =>
      simp only [List.foldl_cons]
      rcases ih (max a x) with h | h
      · rcases max_choice a x with hm | hm
        · left; rw [h, hm]
        · right; rw [h, hm]; exact List.mem_cons_self x t
      · right; exact List.mem_cons_of_mem x h

/-- A `max`-fold over rationals bounds its seed and every list member. -/
theorem le_foldl_max (l : List Rat) (a : Rat) :
    a ≤ l.foldl max a ∧ ∀ x ∈ l, x ≤ l.foldl max a := by
  induction l generalizing a with
  | nil => exact ⟨le_refl a, by simp⟩
  | cons y t ih =>
      obtain ⟨h1, h2⟩ := ih (max a y)
      refine ⟨le_trans (le_max_left a y) h1, ?_⟩
      intro x hx
      rcases List.mem_cons.mp hx with rfl | hx
      · exact le_trans (le_max_right a x) h1
      · exact h2 x hx

/-- Writing a key then reading it returns the written value. -/
theorem dLookup_dInsert_self (d : Dict) (k : String) (v : PyVal) :
    dLookup (dInsert d k v) k = some v := by
  induction d with
  | nil => simp [dInsert, dLookup]
  | cons kv t ih =>
      by_cases h : kv.1 = k
      · simp [dInsert, dLookup, h]
      · simp [dInsert, dLookup, h, ih]

/-- Writing a key leaves every other key's value unchanged. -/
theorem dLookup_dInsert_ne (d : Dict) (k k' : String) (v : PyVal)
    (h : k' ≠ k) : dLookup (dInsert d k v) k' = dLookup d k' := by
  induction d with
  | nil => simp [dInsert, dLookup, Ne.symm h]
  | cons kv t ih =>
      by_cases hk : kv.1 = k
      · subst hk
        simp [dInsert, dLookup, Ne.symm h]
      · by_cases hk' : kv.1 = k'
        · simp [dInsert, dLookup, hk, hk', h]
        · simp [dInsert, dLookup, hk, hk', ih]

/-! Claim theorems. -/

/-- C1 (counterexample): the claim promises that whenever at least one entry
carries the requested relation, `get_entry_href` returns the address of the
last such entry, and that with no matching entry it fails with
`UnsupportedEntryPoint`.  In the discovered directory whose single entry has
relation `login` and address `""`, the last (only) entry with the relation has
address `""`, yet the code raises `UnsupportedEntryPoint` instead of returning
it, because the empty address is falsy; and on the discovered empty directory
the lookup fails with `SMCConnectionError`, not `UnsupportedEntryPoint`. -/
theorem c1_counterexample :
    (SessionCache.mk (some [⟨some "login", some ""⟩]) (some (13/2 : Rat))).get_entry_href
        "login" ≠ Except.ok "" ∧
    (SessionCache.mk (some [⟨some "login", some ""⟩]) (some (13/2 : Rat))).get_entry_href
        "login" =
      .error (.unsupportedEntryPoint (unsupportedMsg "login" (some (13/2 : Rat)))) ∧
    (SessionCache.mk (some []) (some (13/2 : Rat))).get_entry_href "login" =
      .error (.smcConnectionError
        "No entry points found, it is likely there is no valid login session.") :=
  ⟨by decide, rfl, rfl⟩

/-- C1 (amended): over a discovered non-empty directory, if some entry has the
requested relation and the last such entry carries a non-empty address,
`get_entry_href` returns that address (later entries shadow earlier ones); if
no entry has the relation it fails with `UnsupportedEntryPoint`, whose message
contains the requested relation and the rendered current api version. -/
theorem c1_resolve_last_match (cache : SessionCache) (verb : String)
    (entries : List Entry) (hentries : cache.api_entry = some entries)
    (hne : entries ≠ []) :
    (∀ l₁ l₂ e h, entries = l₁ ++ e :: l₂ → e.rel = some verb →
        (∀ e' ∈ l₂, e'.rel ≠ some verb) → e.href = some h → h ≠ "" →
        cache.get_entry_href verb = .ok h)
    ∧ ((∀ e ∈ entries, e.rel ≠ some verb) →
        cache.get_entry_href verb =
          .error (.unsupportedEntryPoint (unsupportedMsg verb cache.api_version)))
    ∧ strContains verb (unsupportedMsg verb cache.api_version) = true
    ∧ strContains (verStr cache.api_version)
        (unsupportedMsg verb cache.api_version) = true := by
  have hie : entries.isEmpty = false := by
    cases entries with
    | nil => exact absurd rfl hne
    | cons a t => rfl
  refine ⟨?_, ?_, ?_, ?_⟩
  · intro l₁ l₂ e h heq hrel hlast hhref hne'
    have hfold : entries.foldl
        (fun acc e => if e.rel = some verb then e.href else acc) none = some h := by
      subst heq
      rw [List.foldl_append, List.foldl_cons, if_pos hrel, hhref]
      exact foldl_rel_no_match verb l₂ (some h) hlast
    have hemp : h.isEmpty = false := by
      cases hi : h.isEmpty with
      | false => rfl
      | true => exact absurd ((String.isEmpty_iff h).mp hi) hne'
    unfold SessionCache.get_entry_href
    rw [hentries]
    simp only [hie, Bool.false_eq_true, if_false, hfold, hemp]
  · intro hnone
    have hfold : entries.foldl
        (fun acc e => if e.rel = some verb then e.href else acc) none = none :=
      foldl_rel_no_match verb entries none hnone
    unfold SessionCache.get_entry_href
    rw [hentries]
    simp only [hie, Bool.false_eq_true, if_false, hfold]
  · refine strContains_of_parts verb _ unsupportedMsgPre.toList
      (unsupportedMsgMid.toList ++ (verStr cache.api_version).toList) ?_
    simp [unsupportedMsg, String.toList, String.data_append, List.append_assoc]
  · refine strContains_of_parts (verStr cache.api_version) _
      (unsupportedMsgPre.toList ++ verb.toList ++ unsupportedMsgMid.toList) [] ?_
    simp [unsupportedMsg, String.toList, String.data_append, List.append_assoc]

/-- C1 (witness): a directory with two `login` entries resolves to the later
entry's address. -/
theorem c1_witness :
    (SessionCache.mk (some [⟨some "first", some "h0"⟩, ⟨some "login", some "A"⟩,
        ⟨some "login", some "B"⟩, ⟨some "other", some "C"⟩])
        (some (13/2 : Rat))).get_entry_href "login" = .ok "B" :=
  (c1_resolve_last_match _ "login" _ rfl (by decide)).1
    [⟨some "first", some "h0"⟩, ⟨some "login", some "A"⟩]
    [⟨some "other", some "C"⟩] ⟨some "login", some "B"⟩ "B"
    rfl rfl (by decide) rfl (by decide)

/-- Helper: a successful `login` returns a session whose 401 counter equals
the caller's — no login path touches `__http_401`. -/
theorem login_http401 (s : Session) (u k : Option String) (av : Option Rat)
    (t : Option Nat) (net : NetOracle) (s' : Session)
    (h : s.login u k av t net = .ok s') : s'.http401 = s.http401 := by
  unfold Session.login at h
  repeat' split at h
  all_goals
    first
      | exact Except.noConfusion h
      | (have h' := Except.ok.inj h
         subst h'
         rfl)

/-- C2 (counterexample): the claim promises that the first and second
`http_unauthorized` calls re-invoke login and only the third fails.  On an
established session with counter 0 and a collaborator that would let every
re-login succeed, the first call re-logs in (counter becomes 1) but already
the second call raises `SMCConnectionError`: the counter is incremented before
the threshold test and is never reset, so it reaches 2 on the second call. -/
theorem c2_counterexample :
    Session.http_unauthorized
        ⟨some "http://smc", some "k", 10,
         ⟨some [⟨some "login", some "http://smc/6.5/login"⟩], some (13/2 : Rat)⟩,
         true, 0⟩
        ⟨["6.5"], 200, "", [⟨some "login", some "http://smc/6.5/login"⟩], 200⟩ =
      .ok ⟨some "http://smc", some "k", 10,
           ⟨some [⟨some "login", some "http://smc/6.5/login"⟩], some (13/2 : Rat)⟩,
           true, 1⟩
    ∧ Session.http_unauthorized
        ⟨some "http://smc", some "k", 10,
         ⟨some [⟨some "login", some "http://smc/6.5/login"⟩], some (13/2 : Rat)⟩,
         true, 1⟩
        ⟨["6.5"], 200, "", [⟨some "login", some "http://smc/6.5/login"⟩], 200⟩ =
      .error (.smcConnectionError "Unauthorized. Too many HTTP 401 requests received.") :=
  ⟨rfl, rfl⟩

/-- C2 (amended): on an established session whose 401 counter is 0, the first
`http_unauthorized` call re-invokes `login` with the stored url, credential
and cached version (succeeding when the collaborator lets it, with the counter
left at 1), and already the second call — not the third — fails with
`SMCConnectionError`, whatever the collaborator then answers. -/
theorem c2_second_call_fails (s : Session) (net net2 : NetOracle) (v : Rat)
    (lh : String)
    (hest : s.established = true) (hcount : s.http401 = 0)
    (hurl : truthyStr s.url = true) (hkey : truthyStr s.api_key = true)
    (hver : s.cache.api_version = some v)
    (hroot : net.rootStatus = 200)
    (hlogin : (SessionCache.mk (some net.rootEntries) (some v)).get_entry_href
      "login" = .ok lh)
    (hstatus : net.loginStatus = 200) :
    s.http_unauthorized net =
      .ok { url := s.url, api_key := s.api_key, timeout := s.timeout,
            cache := ⟨some net.rootEntries, some v⟩, established := true,
            http401 := 1 }
    ∧ Session.http_unauthorized
        { url := s.url, api_key := s.api_key, timeout := s.timeout,
          cache := ⟨some net.rootEntries, some v⟩, established := true,
          http401 := 1 } net2 =
      .error (.smcConnectionError "Unauthorized. Too many HTTP 401 requests received.") := by
  constructor
  · unfold Session.http_unauthorized
    simp only [hest, hcount, if_true]
    norm_num
    unfold Session.login
    simp only [hurl, hkey, Bool.and_self, if_true]
    simp only [SessionCache.get_api_entry, negotiatedVersion, hver, hroot, if_true]
    simp only [hlogin, hstatus, if_true]
    simp [Session.loginTimeout, hcount, negotiatedVersion, hlogin]
  · unfold Session.http_unauthorized
    simp

/-- C2 (witness): a concrete established session with a cooperating
collaborator re-logs in on the first `http_unauthorized` call. -/
theorem c2_witness :
    Session.http_unauthorized
        ⟨some "http://mgmt", some "key", 10,
         ⟨some [⟨some "login", some "http://mgmt/6.5/login"⟩], some (13/2 : Rat)⟩,
         true, 0⟩
        ⟨["6.5"], 200, "", [⟨some "login", some "http://mgmt/6.5/login"⟩], 200⟩ =
      .ok ⟨some "http://mgmt", some "key", 10,
           ⟨some [⟨some "login", some "http://mgmt/6.5/login"⟩], some (13/2 : Rat)⟩,
           true, 1⟩ :=
  (c2_second_call_fails
    ⟨some "http://mgmt", some "key", 10,
     ⟨some [⟨some "login", some "http://mgmt/6.5/login"⟩], some (13/2 : Rat)⟩,
     true, 0⟩
    ⟨["6.5"], 200, "", [⟨some "login", some "http://mgmt/6.5/login"⟩], 200⟩
    ⟨["6.5"], 200, "", [⟨some "login", some "http://mgmt/6.5/login"⟩], 200⟩
    (13/2 : Rat) "http://mgmt/6.5/login"
    rfl rfl rfl rfl rfl rfl rfl rfl).1

/-- C3 (counterexample): the claim promises that the successful login
performed by a reauthentication resets the 401 counter to zero.  On an
established session with counter 0, a reauthentication whose re-login
succeeds returns a session whose counter is 1, not 0. -/
theorem c3_counterexample :
    Session.http_unauthorized
        ⟨some "http://10.1.1.1:8082", some "key2", 10,
         ⟨some [⟨some "login", some "http://10.1.1.1:8082/6.5/login"⟩],
          some (13/2 : Rat)⟩, true, 0⟩
        ⟨["6.5"], 200, "",
         [⟨some "login", some "http://10.1.1.1:8082/6.5/login"⟩], 200⟩ =
      .ok ⟨some "http://10.1.1.1:8082", some "key2", 10,
           ⟨some [⟨some "login", some "http://10.1.1.1:8082/6.5/login"⟩],
            some (13/2 : Rat)⟩, true, 1⟩
    ∧ Session.http401
        ⟨some "http://10.1.1.1:8082", some "key2", 10,
         ⟨some [⟨some "login", some "http://10.1.1.1:8082/6.5/login"⟩],
          some (13/2 : Rat)⟩, true, 1⟩ ≠ 0 :=
  ⟨rfl, by decide⟩

/-- C3 (amended): no success resets the 401 counter.  Every successful
`login` — with any arguments, in particular the re-login performed by
`http_unauthorized` — returns the caller's counter unchanged, and every
successful `http_unauthorized` returns the counter strictly incremented by
one; the counter persists for the life of the session. -/
theorem c3_counter_never_reset (s : Session) (u k : Option String)
    (av : Option Rat) (t : Option Nat) (net : NetOracle) :
    (∀ s', s.login u k av t net = .ok s' → s'.http401 = s.http401)
    ∧ (∀ s', s.http_unauthorized net = .ok s' → s'.http401 = s.http401 + 1) := by
  constructor
  · intro s' h
    exact login_http401 s u k av t net s' h
  · intro s' h
    unfold Session.http_unauthorized at h
    split at h
    · split at h
      · exact Except.noConfusion h
      · exact login_http401 _ _ _ _ _ _ _ h
    · exact Except.noConfusion h

/-- C3 (witness): after a concrete successful reauthentication the counter is
the old counter plus one. -/
theorem c3_witness :
    Session.http401
        ⟨some "http://10.2.2.2", some "kk", 10,
         ⟨some [⟨some "login", some "http://10.2.2.2/6.5/login"⟩],
          some (13/2 : Rat)⟩, true, 1⟩ =
      Session.http401
        ⟨some "http://10.2.2.2", some "kk", 10,
         ⟨some [⟨some "login", some "http://10.2.2.2/6.5/login"⟩],
          some (13/2 : Rat)⟩, true, 0⟩ + 1 :=
  (c3_counter_never_reset
    ⟨some "http://10.2.2.2", some "kk", 10,
     ⟨some [⟨some "login", some "http://10.2.2.2/6.5/login"⟩],
      some (13/2 : Rat)⟩, true, 0⟩
    none none none none
    ⟨["6.5"], 200, "", [⟨some "login", some "http://10.2.2.2/6.5/login"⟩], 200⟩).2
    ⟨some "http://10.2.2.2", some "kk", 10,
     ⟨some [⟨some "login", some "http://10.2.2.2/6.5/login"⟩],
      some (13/2 : Rat)⟩, true, 1⟩
    rfl

/-- C4: with no explicit version, a discovery answer whose identifiers all
parse makes `get_api_entry` negotiate exactly the numeric maximum of the
parsed identifiers — the stored version is the fold of `max` over them, which
is a member of the parsed list and an upper bound of it. -/
theorem c4_negotiates_max_version (cache : SessionCache)
    (advertised : List String) (rootText : String) (rootEntries : List Entry)
    (v : Rat) (vs : List Rat)
    (hparse : advertised.mapM parseDec = some (v :: vs)) :
    cache.get_api_entry none advertised 200 rootText rootEntries =
      .ok ⟨some rootEntries, some (vs.foldl max v)⟩
    ∧ vs.foldl max v ∈ v :: vs
    ∧ ∀ x ∈ v :: vs, x ≤ vs.foldl max v := by
  refine ⟨?_, ?_, ?_⟩
  · simp only [SessionCache.get_api_entry, negotiatedVersion, hparse]
    simp
  · rcases foldl_max_mem vs v with h | h
    · rw [h]; exact List.mem_cons_self v vs
    · exact List.mem_cons_of_mem v h
  · intro x hx
    rcases List.mem_cons.mp hx with rfl | hx
    · exact (le_foldl_max vs x).1
    · exact (le_foldl_max vs v).2 x hx

/-- C4 (witness): discovery advertising 6.1, 6.2 and 6.5 negotiates 6.5
(the rational 13/2). -/
theorem c4_witness :
    SessionCache.init.get_api_entry none ["6.1", "6.2", "6.5"] 200 ""
        [⟨some "login", some "http://x/login"⟩] =
      .ok ⟨some [⟨some "login", some "http://x/login"⟩], some (13/2 : Rat)⟩ := by
  have hparse : ["6.1", "6.2", "6.5"].mapM parseDec =
      some [(61:Rat)/10, (31:Rat)/5, (13:Rat)/2] := by
    have h1 : parseDec "6.1" =
        some (((6:Nat) : Rat) + ((1:Nat) : Rat) / ((10 : Rat) ^ (1:Nat))) := rfl
    have h2 : parseDec "6.2" =
        some (((6:Nat) : Rat) + ((2:Nat) : Rat) / ((10 : Rat) ^ (1:Nat))) := rfl
    have h3 : parseDec "6.5" =
        some (((6:Nat) : Rat) + ((5:Nat) : Rat) / ((10 : Rat) ^ (1:Nat))) := rfl
    rw [List.mapM_cons, List.mapM_cons, List.mapM_cons, List.mapM_nil, h1, h2, h3]
    norm_num
  have hmax : List.foldl max ((61:Rat)/10) [(31:Rat)/5, (13:Rat)/2] = (13:Rat)/2 := by
    norm_num [List.foldl, max_def]
  have happ := (c4_negotiates_max_version SessionCache.init ["6.1", "6.2", "6.5"]
    "" [⟨some "login", some "http://x/login"⟩]
    ((61:Rat)/10) [(31:Rat)/5, (13:Rat)/2] hparse).1
  rw [happ, hmax]

/-- Helper: a well-formed field with a field name distinct from the two
marker keys has exactly one active form. -/
theorem oneActive_of_wf (r : RuleElt) (hw : wfData r)
    (h1 : r.typeof ≠ "any") (h2 : r.typeof ≠ "none") : oneActive r := by
  rcases hw with h | h | ⟨l, h⟩
  · left
    simp [RuleElt.is_any, RuleElt.is_none, dLookup, h, Ne.symm h1]
  · right; left
    simp [RuleElt.is_any, RuleElt.is_none, dLookup, h, Ne.symm h2]
  · right; right
    refine ⟨?_, ?_, l, ?_⟩ <;>
      simp [RuleElt.is_any, RuleElt.is_none, dLookup, h, h1, h2]

/-- Helper: `add_many` keeps the field name. -/
theorem add_many_typeof (r : RuleElt) (items : List RuleItem) :
    (r.add_many items).typeof = r.typeof := by
  by_cases hm : (r.is_none || r.is_any) = true <;> simp [RuleElt.add_many, hm]

/-- Helper: `add_many` always leaves a well-formed explicit-list field. -/
theorem wf_add_many (r : RuleElt) (hw : wfData r)
    (h1 : r.typeof ≠ "any") (h2 : r.typeof ≠ "none") (items : List RuleItem) :
    wfData (r.add_many items) := by
  obtain ⟨tp, data⟩ := r
  simp only at h1 h2 ⊢
  rcases hw with h | h | ⟨l, h⟩ <;> simp only at h <;> subst h <;>
    exact Or.inr (Or.inr ⟨element_resolver_list items, by
      simp [RuleElt.add_many, RuleElt.is_any, RuleElt.is_none, dLookup, dInsert,
        h1, h2]⟩)

/-- C5: on a well-formed field (whose name is neither marker key), each
mutator leaves a well-formed field with exactly one of the three forms
active: `set_any` / `set_none` install their single-key marker and discard
any list; `add` always returns a well-formed field with one active form;
`add_many` likewise; `set_any()` followed by `add(x)` with `x` resolvable
yields exactly the one-element explicit list; and `add_many([])` in a marker
state yields exactly the empty explicit list, not a marker. -/
theorem c5_tri_state (r : RuleElt) (hw : wfData r)
    (h1 : r.typeof ≠ "any") (h2 : r.typeof ≠ "none") :
    (r.set_any.data = [("any", PyVal.pbool true)] ∧ wfData r.set_any
      ∧ oneActive r.set_any)
    ∧ (r.set_none.data = [("none", PyVal.pbool true)] ∧ wfData r.set_none
      ∧ oneActive r.set_none)
    ∧ (∀ item, ∃ r', r.add item = .ok r' ∧ r'.typeof = r.typeof ∧ wfData r'
      ∧ oneActive r')
    ∧ (∀ items, wfData (r.add_many items) ∧ oneActive (r.add_many items))
    ∧ (∀ item h, element_resolver item = .ok h →
        r.set_any.add item = .ok ⟨r.typeof, [(r.typeof, PyVal.plist [h])]⟩)
    ∧ ((r.is_any = true ∨ r.is_none = true) →
        r.add_many [] = ⟨r.typeof, [(r.typeof, PyVal.plist [])]⟩) := by
  have hany : ∀ l, dLookup [(r.typeof, PyVal.plist l)] "any" = none := by
    intro l; simp [dLookup, h1]
  have hnone : ∀ l, dLookup [(r.typeof, PyVal.plist l)] "none" = none := by
    intro l; simp [dLookup, h2]
  refine ⟨⟨rfl, Or.inl rfl, oneActive_of_wf _ (Or.inl rfl) h1 h2⟩,
          ⟨rfl, Or.inr (Or.inl rfl), oneActive_of_wf _ (Or.inr (Or.inl rfl)) h1 h2⟩,
          ?_, ?_, ?_, ?_⟩
  · intro item
    rcases hw with h | h | ⟨l, h⟩
    · cases hres : element_resolver item with
      | error e =>
          refine ⟨⟨r.typeof, [(r.typeof, PyVal.plist [])]⟩, ?_, rfl,
            Or.inr (Or.inr ⟨[], rfl⟩),
            oneActive_of_wf _ (Or.inr (Or.inr ⟨[], rfl⟩)) h1 h2⟩
          simp [RuleElt.add, RuleElt.is_any, RuleElt.is_none, dLookup, h, hres,
            dInsert]
      | ok hr =>
          refine ⟨⟨r.typeof, [(r.typeof, PyVal.plist [hr])]⟩, ?_, rfl,
            Or.inr (Or.inr ⟨[hr], rfl⟩),
            oneActive_of_wf _ (Or.inr (Or.inr ⟨[hr], rfl⟩)) h1 h2⟩
          simp [RuleElt.add, RuleElt.is_any, RuleElt.is_none, dLookup, h, hres,
            dInsert]
    · cases hres : element_resolver item with
      | error e =>
          refine ⟨⟨r.typeof, [(r.typeof, PyVal.plist [])]⟩, ?_, rfl,
            Or.inr (Or.inr ⟨[], rfl⟩),
            oneActive_of_wf _ (Or.inr (Or.inr ⟨[], rfl⟩)) h1 h2⟩
          simp [RuleElt.add, RuleElt.is_any, RuleElt.is_none, dLookup, h, hres,
            dInsert]
      | ok hr =>
          refine ⟨⟨r.typeof, [(r.typeof, PyVal.plist [hr])]⟩, ?_, rfl,
            Or.inr (Or.inr ⟨[hr], rfl⟩),
            oneActive_of_wf _ (Or.inr (Or.inr ⟨[hr], rfl⟩)) h1 h2⟩
          simp [RuleElt.add, RuleElt.is_any, RuleElt.is_none, dLookup, h, hres,
            dInsert]
    · cases hres : element_resolver item with
      | error e =>
          refine ⟨r, ?_, rfl, Or.inr (Or.inr ⟨l, h⟩),
            oneActive_of_wf _ (Or.inr (Or.inr ⟨l, h⟩)) h1 h2⟩
          simp [RuleElt.add, RuleElt.is_any, RuleElt.is_none, h, hany, hnone, hres]
      | ok hr =>
          refine ⟨⟨r.typeof, [(r.typeof, PyVal.plist (l ++ [hr]))]⟩, ?_, rfl,
            Or.inr (Or.inr ⟨l ++ [hr], rfl⟩),
            oneActive_of_wf _ (Or.inr (Or.inr ⟨l ++ [hr], rfl⟩)) h1 h2⟩
          obtain ⟨tp, data⟩ := r
          simp only at h h1 h2 hany hnone ⊢
          subst h
          simp [RuleElt.add, RuleElt.is_any, RuleElt.is_none, dLookup, hres,
            dInsert, h1, h2]
  · intro items
    have hwf' := wf_add_many r hw h1 h2 items
    refine ⟨hwf', oneActive_of_wf _ hwf' ?_ ?_⟩ <;>
      rw [add_many_typeof] <;> assumption
  · intro item h hres
    simp [RuleElt.add, RuleElt.set_any, RuleElt.is_any, RuleElt.is_none, dLookup,
      dInsert, hres]
  · intro hm
    have hb : (r.is_none || r.is_any) = true := by
      rcases hm with h | h <;> simp [h]
    simp [RuleElt.add_many, hb, element_resolver_list, dInsert]

/-- C5 (witness): `add_many([])` on a concrete `none`-marked source field
leaves the empty explicit list. -/
theorem c5_witness :
    RuleElt.add_many ⟨"src", [("none", PyVal.pbool true)]⟩ [] =
      ⟨"src", [("src", PyVal.plist [])]⟩ :=
  (c5_tri_state ⟨"src", [("none", PyVal.pbool true)]⟩ (Or.inr (Or.inl rfl))
    (by decide) (by decide)).2.2.2.2.2 (Or.inr rfl)

/-- C6 (counterexample): the claim promises that `all_as_href` behaves like
`all()` in a marker state and returns an empty list.  On the `any`-marked
source field, `all()` does return `[]`, but `all_as_href` falls off the end of
the function and returns Python `None` — not a list at all. -/
theorem c6_counterexample :
    RuleElt.all_as_href ⟨"src", [("any", PyVal.pbool true)]⟩ = .ok none
    ∧ RuleElt.all_as_href ⟨"src", [("any", PyVal.pbool true)]⟩ ≠ .ok (some [])
    ∧ RuleElt.all ⟨"src", [("any", PyVal.pbool true)]⟩ = .ok [] :=
  ⟨rfl, by decide, rfl⟩

/-- C6 (amended): in a marker state (`any` or `none`), `all()` returns the
empty list, while `all_as_href` returns no list at all (Python `None`, from
the missing final `return []`). -/
theorem c6_marker_results (r : RuleElt)
    (hm : r.is_any = true ∨ r.is_none = true) :
    r.all = .ok [] ∧ r.all_as_href = .ok none := by
  unfold RuleElt.all RuleElt.all_as_href
  rcases hm with h | h <;> simp [h]

/-- C6 (witness): the two readers on a concrete `none`-marked destination
field. -/
theorem c6_witness :
    RuleElt.all ⟨"dst", [("none", PyVal.pbool true)]⟩ = .ok []
    ∧ RuleElt.all_as_href ⟨"dst", [("none", PyVal.pbool true)]⟩ = .ok none :=
  c6_marker_results ⟨"dst", [("none", PyVal.pbool true)]⟩ (Or.inr rfl)

/-- C7: when resolution of the item fails with `ElementNotFound`, `add`
raises nothing: from a marker state it leaves the freshly cleared empty
explicit list (the marker clearing persists), and from a non-marker state it
leaves the field exactly unchanged — the item is silently skipped. -/
theorem c7_skip_unresolved (r : RuleElt) (item : RuleItem)
    (hres : element_resolver item = .error PyExc.elementNotFound) :
    ((r.is_any = true ∨ r.is_none = true) →
        r.add item = .ok ⟨r.typeof, [(r.typeof, PyVal.plist [])]⟩)
    ∧ (r.is_any = false → r.is_none = false → r.add item = .ok r) := by
  constructor
  · intro hm
    have hb : (r.is_none || r.is_any) = true := by
      rcases hm with h | h <;> simp [h]
    simp [RuleElt.add, hb, hres, dInsert]
  · intro ha hn
    simp [RuleElt.add, ha, hn, hres]

/-- C7 (witness): adding an unresolvable element to a concrete `any`-marked
field clears the marker and leaves the empty list, raising nothing. -/
theorem c7_witness :
    RuleElt.add ⟨"src", [("any", PyVal.pbool true)]⟩
        (RuleItem.element "ghost" none) =
      .ok ⟨"src", [("src", PyVal.plist [])]⟩ :=
  (c7_skip_unresolved ⟨"src", [("any", PyVal.pbool true)]⟩
    (RuleItem.element "ghost" none) rfl).1 (Or.inl rfl)

/-- Helper: the base address is shorter than `base + "/"`, so the scan never
matches inside it. -/
theorem afterOcc_base_none (b : String) :
    afterOcc (b ++ "/").toList b.toList = none := by
  apply afterOcc_none_of_longer
  have h : (b ++ "/").toList = b.toList ++ ['/'] := String.data_append b "/"
  rw [h]
  simp

/-- Helper: extracting the hrefs of entries that all carry one succeeds. -/
theorem c8_mapM (b : String) (sub : List (Option String × String)) :
    (sub.map (fun p => Entry.mk p.1 (some (b ++ "/" ++ p.2)))).mapM
      (fun e => match e.href with
        | some h => Except.ok h
        | none => Except.error PyExc.typeError) =
    Except.ok (sub.map (fun p => b ++ "/" ++ p.2)) := by
  induction sub with
  | nil => rfl
  | cons p t ih =>
      rw [List.map_cons, List.map_cons, List.mapM_cons, ih]
      rfl

/-- Helper: scanning addresses of the form `b/suffix` for `b/` yields exactly
the suffixes. -/
theorem c8_filterMap (b : String) (sub : List (Option String × String)) :
    (sub.map (fun p => b ++ "/" ++ p.2)).filterMap
      (fun h => (afterOcc (b ++ "/").toList h.toList).map (fun cs => String.mk cs)) =
    sub.map Prod.snd := by
  induction sub with
  | nil => rfl
  | cons p t ih =>
      have hocc : afterOcc (b ++ "/").toList (b ++ "/" ++ p.2).toList =
          some p.2.toList := by
        have htl : (b ++ "/" ++ p.2).toList = (b ++ "/").toList ++ p.2.toList :=
          String.data_append _ _
        rw [htl, afterOcc_append_self]
      have hsome : Option.map (fun cs => String.mk cs)
          (afterOcc (b ++ "/").toList (b ++ "/" ++ p.2).toList) = some p.2 := by
        rw [hocc]
        simp [strMk_toList]
      rw [List.map_cons, List.map_cons]
      simp only [List.filterMap_cons]
      rw [hsome]
      exact congrArg (List.cons p.2) ih

/-- C8: on a directory holding the base `elements` entry with address `b`
followed by entries whose addresses are `b + "/" + suffix`,
`get_element_filters` returns exactly the suffixes, in order — in particular
their set is the set of distinct suffixes. -/
theorem c8_filter_suffixes (b : String) (ver : Option Rat)
    (sub : List (Option String × String)) (hb : b ≠ "")
    (hrel : ∀ p ∈ sub, p.1 ≠ some "elements") :
    SessionCache.get_element_filters
      ⟨some (Entry.mk (some "elements") (some b) ::
        sub.map (fun p => Entry.mk p.1 (some (b ++ "/" ++ p.2)))), ver⟩ =
      .ok (sub.map Prod.snd) := by
  have hnomatch : ∀ e ∈ sub.map (fun p => Entry.mk p.1 (some (b ++ "/" ++ p.2))),
      e.rel ≠ some "elements" := by
    intro e he
    obtain ⟨p, hp, rfl⟩ := List.mem_map.mp he
    exact hrel p hp
  have hfold :
      (Entry.mk (some "elements") (some b) ::
        sub.map (fun p => Entry.mk p.1 (some (b ++ "/" ++ p.2)))).foldl
        (fun acc e => if e.rel = some "elements" then e.href else acc) none =
      some b := by
    rw [List.foldl_cons, if_pos rfl]
    exact foldl_rel_no_match "elements" _ (some b) hnomatch
  have hemp : b.isEmpty = false := by
    cases hi : b.isEmpty with
    | false => rfl
    | true => exact absurd ((String.isEmpty_iff b).mp hi) hb
  have hhref : SessionCache.get_entry_href
      ⟨some (Entry.mk (some "elements") (some b) ::
        sub.map (fun p => Entry.mk p.1 (some (b ++ "/" ++ p.2)))), ver⟩
      "elements" = .ok b := by
    unfold SessionCache.get_entry_href
    simp only [List.isEmpty_cons, hfold, hemp]
    rfl
  have hmapM : (Entry.mk (some "elements") (some b) ::
      sub.map (fun p => Entry.mk p.1 (some (b ++ "/" ++ p.2)))).mapM
      (fun e => match e.href with
        | some h => Except.ok h
        | none => Except.error PyExc.typeError) =
      Except.ok (b :: sub.map (fun p => b ++ "/" ++ p.2)) := by
    rw [List.mapM_cons, c8_mapM]
    rfl
  have hbasenone : Option.map (fun cs => String.mk cs)
      (afterOcc (b ++ "/").toList b.toList) = none := by
    rw [afterOcc_base_none]
    rfl
  unfold SessionCache.get_element_filters
  rw [hhref]
  simp only [Option.getD_some]
  rw [hmapM]
  simp only [List.filterMap_cons]
  rw [hbasenone]
  rw [c8_filterMap]

/-- C8 (witness): the directory with entries `elements/host`,
`elements/network`, `elements/group` under the `elements` base yields the
filters host, network and group. -/
theorem c8_witness :
    SessionCache.get_element_filters
      ⟨some [⟨some "elements", some "elements"⟩,
             ⟨some "e_host", some "elements/host"⟩,
             ⟨some "e_network", some "elements/network"⟩,
             ⟨some "e_group", some "elements/group"⟩], some (13/2 : Rat)⟩ =
      .ok ["host", "network", "group"] :=
  c8_filter_suffixes "elements" (some (13/2 : Rat))
    [(some "e_host", "host"), (some "e_network", "network"),
     (some "e_group", "group")]
    (by decide) (by decide)

/-- C9 (counterexample): the claim promises that `logout()` on an established
session never raises regardless of the response status.  On an established
session whose discovered directory has no `logout` relation, `logout` resolves
the relation before issuing the PUT and that resolution raises
`UnsupportedEntryPoint` — before any status is even observed. -/
theorem c9_counterexample :
    Session.logout
        ⟨some "http://smc", some "k", 10,
         ⟨some [⟨some "login", some "http://smc/6.5/login"⟩], some (13/2 : Rat)⟩,
         true, 0⟩ 204 =
      .error (.unsupportedEntryPoint (unsupportedMsg "logout" (some (13/2 : Rat)))) :=
  rfl

/-- C9 (amended): provided the session's directory resolves the `logout`
relation, `logout` never raises: every response status (204, 401 or any
other) is only logged, the bound session is unchanged, and therefore a second
call with any status also returns without raising. -/
theorem c9_logout_never_raises (s : Session) (h : String) (st st2 : Nat)
    (hres : s.cache.get_entry_href "logout" = .ok h) :
    s.logout st = .ok s ∧ s.logout st2 = .ok s := by
  constructor <;> simp [Session.logout, hres]

/-- C9 (witness): logging out a concrete established session with statuses
204 and then 401 raises nothing. -/
theorem c9_witness :
    Session.logout
        ⟨some "http://smc2", some "k2", 10,
         ⟨some [⟨some "login", some "http://smc2/6.5/login"⟩,
                ⟨some "logout", some "http://smc2/6.5/logout"⟩],
          some (13/2 : Rat)⟩, true, 0⟩ 204 =
      .ok ⟨some "http://smc2", some "k2", 10,
           ⟨some [⟨some "login", some "http://smc2/6.5/login"⟩,
                  ⟨some "logout", some "http://smc2/6.5/logout"⟩],
            some (13/2 : Rat)⟩, true, 0⟩
    ∧ Session.logout
        ⟨some "http://smc2", some "k2", 10,
         ⟨some [⟨some "login", some "http://smc2/6.5/login"⟩,
                ⟨some "logout", some "http://smc2/6.5/logout"⟩],
          some (13/2 : Rat)⟩, true, 0⟩ 401 =
      .ok ⟨some "http://smc2", some "k2", 10,
           ⟨some [⟨some "login", some "http://smc2/6.5/login"⟩,
                  ⟨some "logout", some "http://smc2/6.5/logout"⟩],
            some (13/2 : Rat)⟩, true, 0⟩ :=
  c9_logout_never_raises
    ⟨some "http://smc2", some "k2", 10,
     ⟨some [⟨some "login", some "http://smc2/6.5/login"⟩,
            ⟨some "logout", some "http://smc2/6.5/logout"⟩],
      some (13/2 : Rat)⟩, true, 0⟩
    "http://smc2/6.5/logout" 204 401 rfl

/-- C10: for any log-options state whose accounting flag is absent or
boolean, the `log_level` setter always leaves `log_accounting_info_mode`
equal to `True`; a value outside the five accepted levels leaves `log_level`
itself unchanged, while an accepted value stores it. -/
theorem c10_accounting_forced (o : LogOptions) (v : String)
    (hb : dLookup o.data "log_accounting_info_mode" = none ∨
          ∃ bo, dLookup o.data "log_accounting_info_mode" = some (PyVal.pbool bo)) :
    (o.set_log_level v).log_accounting_info_mode = some (PyVal.pbool true)
    ∧ (v ∉ ["none", "stored", "transient", "essential", "alert"] →
        (o.set_log_level v).log_level = o.log_level)
    ∧ (v ∈ ["none", "stored", "transient", "essential", "alert"] →
        (o.set_log_level v).log_level = some (PyVal.pstr v)) := by
  have hne1 : ("log_accounting_info_mode" : String) ≠ "log_level" := by decide
  have hne2 : ("log_level" : String) ≠ "log_accounting_info_mode" := by decide
  unfold LogOptions.set_log_level LogOptions.log_level
    LogOptions.log_accounting_info_mode
  by_cases hc : v ∈ ["none", "stored", "transient", "essential", "alert"]
  · rcases hb with hb | ⟨bo, hb⟩
    · simp [hc, truthyVal, dLookup_dInsert_ne _ _ _ _ hne1, hb,
        dLookup_dInsert_self, dLookup_dInsert_ne _ _ _ _ hne2]
    · cases bo <;>
        simp [hc, truthyVal, dLookup_dInsert_ne _ _ _ _ hne1, hb,
          dLookup_dInsert_self, dLookup_dInsert_ne _ _ _ _ hne2]
  · rcases hb with hb | ⟨bo, hb⟩
    · simp [hc, truthyVal, hb, dLookup_dInsert_self,
        dLookup_dInsert_ne _ _ _ _ hne2]
    · cases bo <;>
        simp [hc, truthyVal, hb, dLookup_dInsert_self,
          dLookup_dInsert_ne _ _ _ _ hne2]

/-- C10 (witness): setting the out-of-range level `bogus` on a concrete
options dict forces the accounting flag on and leaves the level untouched. -/
theorem c10_witness :
    (LogOptions.set_log_level
        ⟨[("log_accounting_info_mode", PyVal.pbool false),
          ("log_level", PyVal.pstr "undefined")]⟩ "bogus").log_accounting_info_mode =
      some (PyVal.pbool true)
    ∧ (LogOptions.set_log_level
        ⟨[("log_accounting_info_mode", PyVal.pbool false),
          ("log_level", PyVal.pstr "undefined")]⟩ "bogus").log_level =
      LogOptions.log_level
        ⟨[("log_accounting_info_mode", PyVal.pbool false),
          ("log_level", PyVal.pstr "undefined")]⟩ :=
  ⟨(c10_accounting_forced
      ⟨[("log_accounting_info_mode", PyVal.pbool false),
        ("log_level", PyVal.pstr "undefined")]⟩ "bogus"
      (Or.inr ⟨false, rfl⟩)).1,
   (c10_accounting_forced
      ⟨[("log_accounting_info_mode", PyVal.pbool false),
        ("log_level", PyVal.pstr "undefined")]⟩ "bogus"
      (Or.inr ⟨false, rfl⟩)).2.1 (by decide)⟩

end SMC
